import Mathlib

/-!
Verification of the Choy Apparel cart reconciliation engine.

Shallow embedding of the cart state, the CartStore operations, the login-time
merge, the diff-based incremental synchronizer, the session refresh, and the
checkout entry point, translated from
`src/frontend/src/context/CartContext.tsx`,
`src/frontend/src/hooks/useCheckout.tsx`, the auth context and the API layer.

Quantities and timestamps are modelled as `Int` (JavaScript numbers at the
integral values the program manipulates); product identifiers as `String`.
-/

namespace ChoyApparel

/-- A product, as carried inside a cart item.  Only the fields the cart
logic reads are modelled; `id` is the key everything is matched on. -/
structure Product where
  id : String
  name : String
  price : Int
  deriving Repr, DecidableEq

/-- `CartItem = { product: Product; quantity: number }`. -/
structure CartItem where
  product : Product
  quantity : Int
  deriving Repr, DecidableEq

/-- The live cart held by `CartContext` (`items : CartItem[]`). -/
abbrev Cart := List CartItem

/-- The list of product ids appearing in a cart, in order. -/
def cartIds (items : Cart) : List String :=
  items.map (fun item => item.product.id)

/-- Quantity stored for a product id, `none` when the id is absent
(first match wins, like `Array.prototype.find`). -/
def lookupQty (items : Cart) (productId : String) : Option Int :=
  (items.find? (fun item => item.product.id = productId)).map (fun item => item.quantity)

/-! ### CartStore operations (`CartContext.tsx`, lines 218-267) -/

/-- `addItem(product, quantity = 1)`: if an item with the same product id
exists, its quantity accumulates; otherwise the new item is appended. -/
def addItem (items : Cart) (product : Product) (quantity : Int) : Cart :=
  match items.find? (fun item => item.product.id = product.id) with
  | some _ =>
      items.map (fun item =>
        if item.product.id = product.id then
          { item with quantity := item.quantity + quantity }
        else item)
  | none => items ++ [{ product := product, quantity := quantity }]

/-- `removeItem(productId)`: filters out every item with that product id. -/
def removeItem (items : Cart) (productId : String) : Cart :=
  items.filter (fun item => item.product.id ≠ productId)

/-- `updateQuantity(productId, quantity)`: quantity ≤ 0 delegates to
`removeItem`; otherwise the matching item's quantity is replaced. -/
def updateQuantity (items : Cart) (productId : String) (quantity : Int) : Cart :=
  if quantity ≤ 0 then removeItem items productId
  else
    items.map (fun item =>
      if item.product.id = productId then { item with quantity := quantity } else item)

/-- `clearCart()`: resets the cart to empty. -/
def clearCart (_items : Cart) : Cart := []

/-! ### Reachability for the store invariant (C1) -/

/-- One public CartStore mutation. -/
inductive CartOp where
  | add (product : Product) (quantity : Int)
  | remove (productId : String)
  | update (productId : String) (quantity : Int)
  | clear
  deriving Repr, DecidableEq

/-- Apply one public operation to the cart. -/
def applyOp (items : Cart) : CartOp → Cart
  | .add p q => addItem items p q
  | .remove pid => removeItem items pid
  | .update pid q => updateQuantity items pid q
  | .clear => clearCart items

/-- Run a sequence of public operations from the empty initial cart. -/
def runOps (ops : List CartOp) : Cart :=
  ops.foldl applyOp []

/-- Quantities passed to `addItem` are positive (the spec's data model takes
`quantity : PositiveInteger`); the other operations are unconstrained. -/
def opQtyPos : CartOp → Prop
  | .add _ q => 1 ≤ q
  | _ => True

instance : DecidablePred opQtyPos := fun op => by
  cases op <;> simp [opQtyPos] <;> infer_instance

/-- The cart invariant: every quantity is at least 1 and product ids are
pairwise distinct. -/
def CartInv (items : Cart) : Prop :=
  (∀ item ∈ items, 1 ≤ item.quantity) ∧ (cartIds items).Nodup

instance : DecidablePred CartInv := fun items => by
  unfold CartInv; infer_instance

/-! ### Invariant preservation lemmas -/

theorem cartIds_addItem (items : Cart) (p : Product) (q : Int) :
    cartIds (addItem items p q) =
      match items.find? (fun item => item.product.id = p.id) with
      | some _ => cartIds items
      | none => cartIds items ++ [p.id] := by
  unfold addItem cartIds
  cases h : items.find? (fun item => item.product.id = p.id) with
  | none => simp
  | some it =>
      simp only [List.map_map]
      congr 1
      funext item
      by_cases hid : item.product.id = p.id <;> simp [hid]

theorem cartInv_addItem {items : Cart} (hinv : CartInv items) (p : Product) {q : Int}
    (hq : 1 ≤ q) : CartInv (addItem items p q) := by
  obtain ⟨hqty, hnodup⟩ := hinv
  constructor
  · intro item hmem
    unfold addItem at hmem
    cases h : items.find? (fun item => item.product.id = p.id) with
    | some it =>
        rw [h] at hmem
        simp only [List.mem_map] at hmem
        obtain ⟨src, hsrc, heq⟩ := hmem
        by_cases hid : src.product.id = p.id
        · subst heq; simp only [hid, if_pos]
          have := hqty src hsrc
          omega
        · subst heq; simp only [hid, if_neg, not_false_iff]
          exact hqty src hsrc
    | none =>
        rw [h] at hmem
        rcases List.mem_append.mp hmem with hmem' | hmem'
        · exact hqty item hmem'
        · simp only [List.mem_singleton] at hmem'
          subst hmem'; exact hq
  · rw [cartIds_addItem]
    cases h : items.find? (fun item => item.product.id = p.id) with
    | some it => exact hnodup
    | none =>
        have hnotin : p.id ∉ cartIds items := by
          intro hmem
          unfold cartIds at hmem
          simp only [List.mem_map] at hmem
          obtain ⟨item, hitem, hid⟩ := hmem
          have := List.find?_eq_none.mp h item hitem
          simp [hid] at this
        simp only [List.nodup_append, List.nodup_singleton]
        refine ⟨hnodup, by simp, ?_⟩
        intro a ha hb
        simp only [List.mem_singleton] at hb
        subst hb
        exact hnotin ha

theorem cartInv_removeItem {items : Cart} (hinv : CartInv items) (pid : String) :
    CartInv (removeItem items pid) := by
  obtain ⟨hqty, hnodup⟩ := hinv
  constructor
  · intro item hmem
    exact hqty item (List.mem_of_mem_filter hmem)
  · unfold removeItem cartIds
    exact (List.Nodup.sublist (List.Sublist.map _ (List.filter_sublist _))) hnodup

theorem cartInv_updateQuantity {items : Cart} (hinv : CartInv items) (pid : String)
    (q : Int) : CartInv (updateQuantity items pid q) := by
  unfold updateQuantity
  by_cases hq : q ≤ 0
  · simp only [hq, if_pos]
    exact cartInv_removeItem hinv pid
  · simp only [hq, if_neg, not_false_iff]
    obtain ⟨hqty, hnodup⟩ := hinv
    constructor
    · intro item hmem
      simp only [List.mem_map] at hmem
      obtain ⟨src, hsrc, heq⟩ := hmem
      by_cases hid : src.product.id = pid
      · subst heq; simp only [hid, if_pos]; omega
      · subst heq; simp only [hid, if_neg, not_false_iff]
        exact hqty src hsrc
    · unfold cartIds
      simp only [List.map_map]
      have : (fun item => item.product.id) ∘
          (fun item => if item.product.id = pid then { item with quantity := q } else item) =
          fun item : CartItem => item.product.id := by
        funext item
        by_cases hid : item.product.id = pid <;> simp [hid]
      rw [this]
      exact hnodup

theorem cartInv_applyOp {items : Cart} (hinv : CartInv items) {op : CartOp}
    (hop : opQtyPos op) : CartInv (applyOp items op) := by
  cases op with
  | add p q => exact cartInv_addItem hinv p hop
  | remove pid => exact cartInv_removeItem hinv pid
  | update pid q => exact cartInv_updateQuantity hinv pid q
  | clear =>
      refine ⟨by intro item h; simp [applyOp, clearCart] at h, ?_⟩
      simp [applyOp, clearCart, cartIds]

theorem cartInv_foldl {items : Cart} (hinv : CartInv items) {ops : List CartOp}
    (hops : ∀ op ∈ ops, opQtyPos op) : CartInv (ops.foldl applyOp items) := by
  induction ops generalizing items with
  | nil => exact hinv
  | cons op rest ih =>
      simp only [List.foldl_cons]
      exact ih (cartInv_applyOp hinv (hops op (List.mem_cons_self op rest)))
        (fun o ho => hops o (List.mem_cons_of_mem op ho))

/-- C1: every cart reachable from the empty cart by public operations whose
`addItem` quantities are positive satisfies the invariant: all quantities are
at least 1 and product ids are pairwise distinct. -/
theorem reachable_cart_invariant (ops : List CartOp)
    (hops : ∀ op ∈ ops, opQtyPos op) : CartInv (runOps ops) := by
  unfold runOps
  exact cartInv_foldl ⟨by intro item h; simp at h, by simp [cartIds]⟩ hops

/-- Witness for C1 at a concrete operation sequence. -/
theorem reachable_cart_invariant_witness :
    (∀ op ∈ [CartOp.add ⟨"A", "shirt", 20⟩ 2, CartOp.update "A" 5, CartOp.remove "B"],
      opQtyPos op) ∧
    CartInv (runOps [CartOp.add ⟨"A", "shirt", 20⟩ 2, CartOp.update "A" 5, CartOp.remove "B"]) :=
  ⟨by decide, reachable_cart_invariant _ (by decide)⟩

/-! ### JavaScript `Map` keyed by product id (`mapByProductId`, `mergeCarts`) -/

/-- An insertion-ordered map as an association list (the shape of a
JavaScript `Map` over its entries). -/
abbrev PMap := List (String × CartItem)

/-- `map.set(k, v)`: replaces the value in place when the key exists,
otherwise appends the entry. -/
def pmapSet (m : PMap) (k : String) (v : CartItem) : PMap :=
  if m.any (fun e => e.1 = k) then
    m.map (fun e => if e.1 = k then (k, v) else e)
  else m ++ [(k, v)]

/-- `map.has(k)`. -/
def pmapHas (m : PMap) (k : String) : Bool :=
  m.any (fun e => e.1 = k)

/-- `map.get(k)`. -/
def pmapGet (m : PMap) (k : String) : Option CartItem :=
  (m.find? (fun e => e.1 = k)).map (fun e => e.2)

/-- `mapByProductId(arr)`: builds the `Map` from product id to item by
`arr.forEach(item => map.set(item.product.id, item))`. -/
def mapByProductId (arr : Cart) : PMap :=
  arr.foldl (fun m item => pmapSet m item.product.id item) []

/-- One `cartB.forEach` step of `mergeCarts`: an existing entry's quantity
accumulates, a fresh entry is appended. -/
def mergeStep (m : PMap) (item : CartItem) : PMap :=
  if pmapHas m item.product.id then
    m.map (fun e =>
      if e.1 = item.product.id then (e.1, { e.2 with quantity := e.2.quantity + item.quantity })
      else e)
  else m ++ [(item.product.id, item)]

/-- `mergeCarts(cartA, cartB)`: seeds the merged map with `cartA`, folds
`cartB` in additively, and returns the map's values. -/
def mergeCarts (cartA cartB : Cart) : Cart :=
  ((cartB.foldl mergeStep (mapByProductId cartA)).map (fun e => e.2))

/-! ### The sync diff (`syncCartToBackend`, `CartContext.tsx` lines 160-199) -/

/-- One backend cart call issued by a sync cycle. -/
inductive SyncCall where
  | removeItemFromCart (productId : String)
  | addItemToCart (productId : String) (quantity : Int)
  | updateItemQuantity (productId : String) (quantity : Int)
  deriving Repr, DecidableEq

/-- The product id a sync call is about. -/
def SyncCall.productId : SyncCall → String
  | .removeItemFromCart pid => pid
  | .addItemToCart pid _ => pid
  | .updateItemQuantity pid _ => pid

/-- The calls a sync cycle issues, in order: removals for ids in the last
synced map missing from the current map, then adds/updates over the current
map against the last synced map. -/
def diffCalls (lastSyncedItems currentItems : Cart) : List SyncCall :=
  ((mapByProductId lastSyncedItems).filterMap (fun e =>
    if pmapHas (mapByProductId currentItems) e.1 then none
    else some (SyncCall.removeItemFromCart e.1))) ++
  ((mapByProductId currentItems).filterMap (fun e =>
    match pmapGet (mapByProductId lastSyncedItems) e.1 with
    | none => some (SyncCall.addItemToCart e.1 e.2.quantity)
    | some lastItem =>
        if lastItem.quantity ≠ e.2.quantity then
          some (SyncCall.updateItemQuantity e.1 e.2.quantity)
        else none))

/-! ### Association-list lemmas -/

/-- The key of every entry produced by the cart maps matches the stored
item's product id, and keys are pairwise distinct. -/
def pmapWF (m : PMap) : Prop :=
  (∀ e ∈ m, e.2.product.id = e.1) ∧ (m.map (fun e => e.1)).Nodup

/-- Quantity recorded in a `PMap` for a key. -/
def pmapQty (m : PMap) (k : String) : Option Int :=
  (pmapGet m k).map (fun item => item.quantity)

theorem foldl_pmapSet_of_disjoint (arr : Cart) :
    ∀ m : PMap, (∀ item ∈ arr, ¬ (m.any (fun e => e.1 = item.product.id)) = true) →
    (cartIds arr).Nodup →
    arr.foldl (fun m item => pmapSet m item.product.id item) m =
      m ++ arr.map (fun item => (item.product.id, item)) := by
  induction arr with
  | nil => intro m _ _; simp
  | cons it rest ih =>
      intro m hdisj hnd
      simp only [List.foldl_cons, List.map_cons]
      have hstep : pmapSet m it.product.id it = m ++ [(it.product.id, it)] := by
        unfold pmapSet
        have := hdisj it (List.mem_cons_self it rest)
        simp only [this, if_neg]
        simp at this
        simp [this]
      rw [hstep]
      have hnd' : (cartIds rest).Nodup := by
        unfold cartIds at hnd ⊢
        exact (List.nodup_cons.mp hnd).2
      have hhead : it.product.id ∉ cartIds rest := by
        unfold cartIds at hnd
        exact (List.nodup_cons.mp hnd).1
      rw [ih (m ++ [(it.product.id, it)]) ?_ hnd']
      · simp
      · intro item hitem
        have h1 := hdisj item (List.mem_cons_of_mem it hitem)
        simp only [Bool.not_eq_true] at h1
        simp only [List.any_append, List.any_cons, List.any_nil, Bool.or_eq_true]
        intro hor
        rcases hor with h | h | h
        · simp [h1] at h
        · have heq : it.product.id = item.product.id := of_decide_eq_true h
          exact hhead (heq ▸ (List.mem_map.mpr ⟨item, hitem, rfl⟩))
        · exact Bool.false_ne_true h

/-- On a cart with pairwise-distinct product ids, `mapByProductId` is the
plain pairing of each item with its id. -/
theorem mapByProductId_eq_pairs {arr : Cart} (hnd : (cartIds arr).Nodup) :
    mapByProductId arr = arr.map (fun item => (item.product.id, item)) := by
  unfold mapByProductId
  simpa using foldl_pmapSet_of_disjoint arr [] (by intro item _; simp) hnd

theorem find?_map_of_key (arr : Cart) (k : String) :
    (arr.map (fun item => (item.product.id, item))).find? (fun e => e.1 = k) =
      (arr.find? (fun item => item.product.id = k)).map (fun item => (item.product.id, item)) := by
  induction arr with
  | nil => rfl
  | cons it rest ih =>
      simp only [List.map_cons, List.find?_cons]
      by_cases h : it.product.id = k
      · simp [h]
      · have hd : decide (it.product.id = k) = false := decide_eq_false h
        simp only [List.find?_cons, hd]
        exact ih

/-- On a nodup cart, map lookup agrees with `find?` on the cart itself. -/
theorem pmapGet_mapByProductId {arr : Cart} (hnd : (cartIds arr).Nodup) (k : String) :
    pmapGet (mapByProductId arr) k = arr.find? (fun item => item.product.id = k) := by
  rw [pmapGet, mapByProductId_eq_pairs hnd, find?_map_of_key]
  cases arr.find? (fun item => item.product.id = k) <;> simp

/-- `pmapHas` over `mapByProductId` tests membership of the id in the cart. -/
theorem pmapHas_mapByProductId {arr : Cart} (hnd : (cartIds arr).Nodup) (k : String) :
    pmapHas (mapByProductId arr) k = (arr.any (fun item => item.product.id = k)) := by
  rw [pmapHas, mapByProductId_eq_pairs hnd]
  clear hnd
  induction arr with
  | nil => rfl
  | cons it rest ih => simp only [List.map_cons, List.any_cons, ih]

/-- C10: `updateQuantity` with a product id absent from the cart and a
positive quantity leaves the cart unchanged: nothing is inserted and no
existing item is modified. -/
theorem updateQuantity_absent_id_frame (items : Cart) (productId : String) (quantity : Int)
    (hq : 1 ≤ quantity) (habsent : ∀ item ∈ items, item.product.id ≠ productId) :
    updateQuantity items productId quantity = items := by
  unfold updateQuantity
  have hq' : ¬ quantity ≤ 0 := by omega
  simp only [hq', if_neg, not_false_iff]
  calc items.map (fun item =>
          if item.product.id = productId then { item with quantity := quantity } else item)
      = items.map id := by
        apply List.map_congr_left
        intro item hitem
        simp [habsent item hitem]
    _ = items := List.map_id items

/-- Witness for C10 at a concrete cart. -/
theorem updateQuantity_absent_id_frame_witness :
    (1 : Int) ≤ 3 ∧
    updateQuantity [⟨⟨"A", "shirt", 20⟩, 2⟩] "B" 3 = [⟨⟨"A", "shirt", 20⟩, 2⟩] :=
  ⟨by decide, updateQuantity_absent_id_frame _ "B" 3 (by decide) (by decide)⟩

/-! ### Merge additivity (C6) -/

/-- Pointwise combination of two optional quantities: both present sum,
one present is kept, neither present stays absent. -/
def combineQty : Option Int → Option Int → Option Int
  | some x, some y => some (x + y)
  | some x, none => some x
  | none, some y => some y
  | none, none => none

theorem find?_map_of_key_pres (f : String × CartItem → String × CartItem)
    (hf : ∀ e, (f e).1 = e.1) (m : PMap) (k : String) :
    (m.map f).find? (fun e => e.1 = k) = (m.find? (fun e => e.1 = k)).map f := by
  induction m with
  | nil => rfl
  | cons e rest ih =>
      simp only [List.map_cons, List.find?_cons]
      by_cases h : e.1 = k
      · have h' : (f e).1 = k := by rw [hf e]; exact h
        simp [h, h']
      · have h' : ¬ (f e).1 = k := by rw [hf e]; exact h
        simp only [decide_eq_false h, decide_eq_false h']
        exact ih

theorem pmapWF_mergeStep {m : PMap} (hwf : pmapWF m) (it : CartItem) :
    pmapWF (mergeStep m it) := by
  obtain ⟨hids, hnd⟩ := hwf
  unfold mergeStep
  by_cases hhas : pmapHas m it.product.id
  · rw [if_pos hhas]
    constructor
    · intro e he
      simp only [List.mem_map] at he
      obtain ⟨src, hsrc, heq⟩ := he
      by_cases hk : src.1 = it.product.id
      · subst heq
        simp only [hk, if_pos]
        exact (hids src hsrc).trans hk
      · subst heq
        simp only [hk, if_neg, not_false_iff]
        exact hids src hsrc
    · have : (List.map (fun e => e.1)
          (m.map (fun e =>
            if e.1 = it.product.id then (e.1, { e.2 with quantity := e.2.quantity + it.quantity })
            else e))) = m.map (fun e => e.1) := by
        rw [List.map_map]
        apply List.map_congr_left
        intro e _
        by_cases hk : e.1 = it.product.id <;> simp [hk]
      rw [this]
      exact hnd
  · rw [if_neg hhas]
    have hnotin : it.product.id ∉ m.map (fun e => e.1) := by
      intro hmem
      apply hhas
      unfold pmapHas
      rcases List.mem_map.mp hmem with ⟨e, he, hkey⟩
      exact List.any_eq_true.mpr ⟨e, he, by simp [hkey]⟩
    constructor
    · intro e he
      rcases List.mem_append.mp he with h | h
      · exact hids e h
      · simp only [List.mem_singleton] at h
        subst h; rfl
    · simp only [List.map_append, List.map_cons, List.map_nil]
      simp only [List.nodup_append, List.nodup_singleton]
      refine ⟨hnd, by simp, ?_⟩
      intro a ha hb
      simp only [List.mem_singleton] at hb
      subst hb
      exact hnotin ha

theorem pmapQty_mergeStep_self (m : PMap) (it : CartItem) :
    pmapQty (mergeStep m it) it.product.id =
      some ((pmapQty m it.product.id).getD 0 + it.quantity) := by
  unfold mergeStep
  by_cases hhas : pmapHas m it.product.id
  · rw [if_pos hhas]
    unfold pmapHas at hhas
    rcases List.any_eq_true.mp hhas with ⟨e, he, hkey⟩
    simp only [decide_eq_true_eq] at hkey
    have hfind : (m.find? (fun e => e.1 = it.product.id)).isSome := by
      rw [List.find?_isSome]
      exact ⟨e, he, by simp [hkey]⟩
    obtain ⟨e', he'⟩ := Option.isSome_iff_exists.mp hfind
    have hkey' : e'.1 = it.product.id := by
      have := List.find?_some he'
      simpa using this
    unfold pmapQty pmapGet
    rw [find?_map_of_key_pres _ ?_ m it.product.id]
    · rw [he']
      simp [hkey']
    · intro x
      by_cases hx : x.1 = it.product.id <;> simp [hx]
  · rw [if_neg hhas]
    have hnone : m.find? (fun e => e.1 = it.product.id) = none := by
      rw [List.find?_eq_none]
      intro e he
      simp only [decide_eq_true_eq]
      intro hkey
      apply hhas
      exact List.any_eq_true.mpr ⟨e, he, by simp [hkey]⟩
    unfold pmapQty pmapGet
    rw [List.find?_append, hnone]
    simp

theorem pmapQty_mergeStep_other {m : PMap} (it : CartItem) {k : String}
    (hk : k ≠ it.product.id) : pmapQty (mergeStep m it) k = pmapQty m k := by
  unfold mergeStep
  by_cases hhas : pmapHas m it.product.id
  · rw [if_pos hhas]
    unfold pmapQty pmapGet
    rw [find?_map_of_key_pres _ ?_ m k]
    · cases hfind : m.find? (fun e => e.1 = k) with
      | none => simp
      | some e =>
          have hkey : e.1 = k := by
            have := List.find?_some hfind
            simpa using this
          have : ¬ e.1 = it.product.id := by rw [hkey]; exact hk
          simp [this]
    · intro x
      by_cases hx : x.1 = it.product.id <;> simp [hx]
  · rw [if_neg hhas]
    unfold pmapQty pmapGet
    rw [List.find?_append]
    have hsingle : ([(it.product.id, it)] : PMap).find? (fun e => e.1 = k) = none := by
      have : ¬ it.product.id = k := fun h => hk h.symm
      simp [List.find?_cons, this]
    rw [hsingle]
    cases m.find? (fun e => e.1 = k) <;> rfl

theorem lookupQty_cons (it : CartItem) (rest : Cart) (k : String) :
    lookupQty (it :: rest) k =
      if it.product.id = k then some it.quantity else lookupQty rest k := by
  unfold lookupQty
  by_cases h : it.product.id = k
  · rw [List.find?_cons_of_pos _ (by simp [h])]
    simp [h]
  · rw [List.find?_cons_of_neg _ (by simp [h])]
    simp [h]

theorem lookupQty_eq_none_of_not_mem {c : Cart} {k : String} (h : k ∉ cartIds c) :
    lookupQty c k = none := by
  unfold lookupQty
  rw [List.find?_eq_none.mpr]
  · rfl
  · intro item hitem
    simp only [decide_eq_true_eq]
    intro hkey
    exact h (hkey ▸ List.mem_map.mpr ⟨item, hitem, rfl⟩)

theorem pmapQty_foldl_mergeStep (b : Cart) :
    ∀ m : PMap, pmapWF m → (cartIds b).Nodup → ∀ k,
    pmapQty (b.foldl mergeStep m) k = combineQty (pmapQty m k) (lookupQty b k) := by
  induction b with
  | nil =>
      intro m _ _ k
      simp only [List.foldl_nil]
      cases pmapQty m k <;> simp [combineQty, lookupQty]
  | cons it rest ih =>
      intro m hwf hnd k
      have hnd' : (cartIds rest).Nodup := (List.nodup_cons.mp hnd).2
      have hhead : it.product.id ∉ cartIds rest := (List.nodup_cons.mp hnd).1
      simp only [List.foldl_cons]
      rw [ih (mergeStep m it) (pmapWF_mergeStep hwf it) hnd' k]
      by_cases hk : k = it.product.id
      · subst hk
        rw [pmapQty_mergeStep_self m it, lookupQty_eq_none_of_not_mem hhead,
          lookupQty_cons]
        simp only [if_pos rfl]
        cases pmapQty m it.product.id <;> simp [combineQty]
      · rw [pmapQty_mergeStep_other it hk, lookupQty_cons]
        have : ¬ it.product.id = k := fun h => hk h.symm
        simp [this]

theorem lookupQty_values {m : PMap} (hids : ∀ e ∈ m, e.2.product.id = e.1) (k : String) :
    lookupQty (m.map (fun e => e.2)) k = pmapQty m k := by
  induction m with
  | nil => rfl
  | cons e rest ih =>
      have hid := hids e (List.mem_cons_self e rest)
      have hrest : ∀ x ∈ rest, x.2.product.id = x.1 :=
        fun x hx => hids x (List.mem_cons_of_mem e hx)
      simp only [List.map_cons]
      rw [lookupQty_cons]
      unfold pmapQty pmapGet
      by_cases hk : e.1 = k
      · rw [List.find?_cons_of_pos _ (by simp [hk])]
        simp [hid, hk]
      · rw [List.find?_cons_of_neg _ (by simp [hk])]
        have : ¬ e.2.product.id = k := by rw [hid]; exact hk
        simp only [this, if_neg, not_false_iff]
        exact ih hrest

theorem pmapWF_mapByProductId {arr : Cart} (hnd : (cartIds arr).Nodup) :
    pmapWF (mapByProductId arr) := by
  rw [mapByProductId_eq_pairs hnd]
  constructor
  · intro e he
    rcases List.mem_map.mp he with ⟨item, _, heq⟩
    subst heq; rfl
  · rw [List.map_map]
    have : ((fun e : String × CartItem => e.1) ∘ fun item : CartItem => (item.product.id, item)) =
        fun item : CartItem => item.product.id := rfl
    rw [this]
    exact hnd

theorem pmapWF_foldl_mergeStep (b : Cart) :
    ∀ m : PMap, pmapWF m → pmapWF (b.foldl mergeStep m) := by
  induction b with
  | nil => intro m h; exact h
  | cons it rest ih =>
      intro m h
      simp only [List.foldl_cons]
      exact ih _ (pmapWF_mergeStep h it)

theorem pmapQty_mapByProductId {arr : Cart} (hnd : (cartIds arr).Nodup) (k : String) :
    pmapQty (mapByProductId arr) k = lookupQty arr k := by
  unfold pmapQty lookupQty
  rw [pmapGet_mapByProductId hnd]

theorem lookupQty_isSome_iff (c : Cart) (k : String) :
    (lookupQty c k).isSome = true ↔ k ∈ cartIds c := by
  unfold lookupQty cartIds
  have hms : (Option.map (fun item : CartItem => item.quantity)
      (c.find? (fun item => item.product.id = k))).isSome =
      (c.find? (fun item => item.product.id = k)).isSome := by
    cases c.find? (fun item => item.product.id = k) <;> rfl
  rw [hms, List.find?_isSome]
  constructor
  · rintro ⟨item, hitem, hkey⟩
    simp only [decide_eq_true_eq] at hkey
    exact hkey ▸ List.mem_map.mpr ⟨item, hitem, rfl⟩
  · intro hmem
    rcases List.mem_map.mp hmem with ⟨item, hitem, hkey⟩
    exact ⟨item, hitem, by simp [hkey]⟩

/-- C6: `mergeCarts` is additive.  For carts with pairwise-distinct product
ids, the merged cart holds, for every product id, the sum of the two
quantities when both carts have the id, the single quantity when one has it,
and nothing otherwise; its id set is the union of the two id sets.  In
particular `mergeCarts {A:2, B:1} {B:3, C:1} = {A:2, B:4, C:1}`. -/
theorem mergeCarts_additive :
    (∀ cartA cartB : Cart, (cartIds cartA).Nodup → (cartIds cartB).Nodup →
      (∀ productId, lookupQty (mergeCarts cartA cartB) productId =
          combineQty (lookupQty cartA productId) (lookupQty cartB productId)) ∧
      (∀ productId, productId ∈ cartIds (mergeCarts cartA cartB) ↔
          productId ∈ cartIds cartA ∨ productId ∈ cartIds cartB)) ∧
    mergeCarts [⟨⟨"A", "a", 10⟩, 2⟩, ⟨⟨"B", "b", 30⟩, 1⟩]
        [⟨⟨"B", "b", 30⟩, 3⟩, ⟨⟨"C", "c", 5⟩, 1⟩] =
      [⟨⟨"A", "a", 10⟩, 2⟩, ⟨⟨"B", "b", 30⟩, 4⟩, ⟨⟨"C", "c", 5⟩, 1⟩] := by
  constructor
  · intro cartA cartB hndA hndB
    have hwfA := pmapWF_mapByProductId hndA
    have hq : ∀ k, lookupQty (mergeCarts cartA cartB) k =
        combineQty (lookupQty cartA k) (lookupQty cartB k) := by
      intro k
      unfold mergeCarts
      rw [lookupQty_values (pmapWF_foldl_mergeStep cartB _ hwfA).1 k,
        pmapQty_foldl_mergeStep cartB _ hwfA hndB k,
        pmapQty_mapByProductId hndA]
    refine ⟨hq, ?_⟩
    intro k
    rw [← lookupQty_isSome_iff, ← lookupQty_isSome_iff, ← lookupQty_isSome_iff, hq k]
    cases lookupQty cartA k <;> cases lookupQty cartB k <;> simp [combineQty]
  · rfl

/-- Witness for C6 at the spec's example carts. -/
theorem mergeCarts_additive_witness :
    lookupQty (mergeCarts [⟨⟨"A", "a", 10⟩, 2⟩, ⟨⟨"B", "b", 30⟩, 1⟩]
        [⟨⟨"B", "b", 30⟩, 3⟩, ⟨⟨"C", "c", 5⟩, 1⟩]) "B" =
      combineQty (lookupQty [⟨⟨"A", "a", 10⟩, 2⟩, ⟨⟨"B", "b", 30⟩, 1⟩] "B")
        (lookupQty [⟨⟨"B", "b", 30⟩, 3⟩, ⟨⟨"C", "c", 5⟩, 1⟩] "B") :=
  (mergeCarts_additive.1 _ _ (by decide) (by decide)).1 "B"

/-! ### The network transport and a sync cycle (C4, C5) -/

/-- Outcome of one `fetch` inside `apiRequest`: the server replied with some
HTTP status (the body is assumed JSON-parsable), or the request/parse
rejected with an error message. -/
inductive NetResult where
  | reply (status : Nat)
  | reject (msg : String)
  deriving Repr, DecidableEq

/-- `apiRequest` resolves with the parsed body whenever `fetch` resolved —
a 401 status is only logged via `console.error`, never thrown — and
propagates the rejection message otherwise. -/
def apiRequestError : NetResult → Option String
  | .reply _ => none
  | .reject msg => some msg

/-- JavaScript `msg.includes('Unauthorized')`. -/
def includesUnauthorized (msg : String) : Bool :=
  1 < (msg.splitOn "Unauthorized").length

/-- Awaits the calls of a batch in order, stopping at the first rejected
request: the calls dispatched so far and the aborting error, if any. -/
def runCalls (net : SyncCall → NetResult) : List SyncCall → List SyncCall × Option String
  | [] => ([], none)
  | c :: rest =>
      match apiRequestError (net c) with
      | some msg => ([c], some msg)
      | none =>
          let r := runCalls net rest
          (c :: r.1, r.2)

/-- The observable outcome of one `syncCartToBackend` cycle. -/
structure CycleOutcome where
  issued : List SyncCall
  newBaseline : Cart
  signedOut : Bool
  toastError : Option String
  deriving Repr, DecidableEq

/-- `syncCartToBackend`: dispatches the diff batch sequentially; after the
whole batch resolves it advances `lastSyncedItemsRef` to the current items;
a rejection leaves the baseline stale and, exactly when the error message
includes `'Unauthorized'`, calls `signOut()` and toasts a session-expired
message; any other failure is only logged. -/
def syncCartToBackend (net : SyncCall → NetResult) (lastSyncedItems currentItems : Cart) :
    CycleOutcome :=
  match runCalls net (diffCalls lastSyncedItems currentItems) with
  | (issued, none) =>
      { issued := issued, newBaseline := currentItems, signedOut := false, toastError := none }
  | (issued, some msg) =>
      if includesUnauthorized msg then
        { issued := issued, newBaseline := lastSyncedItems, signedOut := true,
          toastError := some "Session expired. Please log in again." }
      else
        { issued := issued, newBaseline := lastSyncedItems, signedOut := false,
          toastError := none }

theorem runCalls_all_ok {net : SyncCall → NetResult}
    (hok : ∀ c, apiRequestError (net c) = none) :
    ∀ cs : List SyncCall, runCalls net cs = (cs, none) := by
  intro cs
  induction cs with
  | nil => rfl
  | cons c rest ih =>
      unfold runCalls
      rw [hok c, ih]

/-! ### Per-id characterization of the diff (C5) -/

theorem pmapHas_pairs (arr : Cart) (k : String) :
    pmapHas (arr.map (fun item => (item.product.id, item))) k =
      arr.any (fun item => item.product.id = k) := by
  unfold pmapHas
  induction arr with
  | nil => rfl
  | cons it rest ih => simp only [List.map_cons, List.any_cons, ih]

theorem pmapGet_pairs (arr : Cart) (k : String) :
    pmapGet (arr.map (fun item => (item.product.id, item))) k =
      arr.find? (fun item => item.product.id = k) := by
  unfold pmapGet
  rw [find?_map_of_key]
  cases arr.find? (fun item => item.product.id = k) <;> rfl

theorem filterMap_filter_absent (f : CartItem → Option SyncCall)
    (hf : ∀ x c, f x = some c → c.productId = x.product.id) :
    ∀ (xs : Cart) (pid : String), (∀ x ∈ xs, x.product.id ≠ pid) →
    (xs.filterMap f).filter (fun c => c.productId = pid) = [] := by
  intro xs
  induction xs with
  | nil => intro pid _; rfl
  | cons x rest ih =>
      intro pid habs
      rw [List.filterMap_cons]
      cases hfx : f x with
      | none => exact ih pid (fun y hy => habs y (List.mem_cons_of_mem x hy))
      | some c =>
          have hne : ¬ c.productId = pid := by
            rw [hf x c hfx]
            exact habs x (List.mem_cons_self x rest)
          rw [List.filter_cons, if_neg (by simp [hne])]
          exact ih pid (fun y hy => habs y (List.mem_cons_of_mem x hy))

theorem filterMap_filter_by_id (f : CartItem → Option SyncCall)
    (hf : ∀ x c, f x = some c → c.productId = x.product.id) :
    ∀ (xs : Cart), (cartIds xs).Nodup → ∀ pid : String,
    (xs.filterMap f).filter (fun c => c.productId = pid) =
      match xs.find? (fun x => x.product.id = pid) with
      | some x => (f x).toList
      | none => [] := by
  intro xs
  induction xs with
  | nil => intro _ pid; rfl
  | cons x rest ih =>
      intro hnd pid
      have hnd' : (cartIds rest).Nodup := (List.nodup_cons.mp hnd).2
      have hhead : x.product.id ∉ cartIds rest := (List.nodup_cons.mp hnd).1
      rw [List.filterMap_cons]
      by_cases hx : x.product.id = pid
      · rw [List.find?_cons_of_pos _ (by simp [hx])]
        have habs : ∀ y ∈ rest, y.product.id ≠ pid := by
          intro y hy heq
          exact hhead (hx ▸ heq ▸ List.mem_map.mpr ⟨y, hy, rfl⟩)
        cases hfx : f x with
        | none =>
            rw [filterMap_filter_absent f hf rest pid habs]
            simp [hfx]
        | some c =>
            rw [List.filter_cons, if_pos (by simp [hf x c hfx, hx]),
              filterMap_filter_absent f hf rest pid habs]
            simp [hfx]
      · rw [List.find?_cons_of_neg _ (by simp [hx])]
        cases hfx : f x with
        | none => exact ih hnd' pid
        | some c =>
            rw [List.filter_cons, if_neg (by simp [hf x c hfx, hx])]
            exact ih hnd' pid

/-- The removal pass of the diff, as a function of a single last-synced item. -/
def removePass (currentItems : Cart) (item : CartItem) : Option SyncCall :=
  if currentItems.any (fun x => x.product.id = item.product.id) then none
  else some (SyncCall.removeItemFromCart item.product.id)

/-- The add/update pass of the diff, as a function of a single current item. -/
def addUpdatePass (lastSyncedItems : Cart) (item : CartItem) : Option SyncCall :=
  match lastSyncedItems.find? (fun x => x.product.id = item.product.id) with
  | none => some (SyncCall.addItemToCart item.product.id item.quantity)
  | some lastItem =>
      if lastItem.quantity ≠ item.quantity then
        some (SyncCall.updateItemQuantity item.product.id item.quantity)
      else none

theorem diffCalls_eq_passes {lastSyncedItems currentItems : Cart}
    (hndL : (cartIds lastSyncedItems).Nodup) (hndC : (cartIds currentItems).Nodup) :
    diffCalls lastSyncedItems currentItems =
      lastSyncedItems.filterMap (removePass currentItems) ++
      currentItems.filterMap (addUpdatePass lastSyncedItems) := by
  unfold diffCalls
  rw [mapByProductId_eq_pairs hndL, mapByProductId_eq_pairs hndC,
    List.filterMap_map, List.filterMap_map]
  congr 1
  · apply List.filterMap_congr  -- may not exist; fallback below
    intro e _
    simp only [Function.comp_apply, pmapHas_pairs, removePass]
  · apply List.filterMap_congr
    intro e _
    simp only [Function.comp_apply, pmapGet_pairs, addUpdatePass]

theorem removePass_productId (currentItems : Cart) :
    ∀ x c, removePass currentItems x = some c → c.productId = x.product.id := by
  intro x c h
  unfold removePass at h
  split at h
  · cases h
  · cases h; rfl

theorem addUpdatePass_productId (lastSyncedItems : Cart) :
    ∀ x c, addUpdatePass lastSyncedItems x = some c → c.productId = x.product.id := by
  intro x c h
  unfold addUpdatePass at h
  split at h
  · cases h; rfl
  · split at h
    · cases h; rfl
    · cases h

theorem diffCalls_filter_by_id {lastSyncedItems currentItems : Cart}
    (hndL : (cartIds lastSyncedItems).Nodup) (hndC : (cartIds currentItems).Nodup)
    (pid : String) :
    (diffCalls lastSyncedItems currentItems).filter (fun c => c.productId = pid) =
      match lookupQty lastSyncedItems pid, lookupQty currentItems pid with
      | some _, none => [SyncCall.removeItemFromCart pid]
      | none, some q => [SyncCall.addItemToCart pid q]
      | some b, some q =>
          if b ≠ q then [SyncCall.updateItemQuantity pid q] else []
      | none, none => [] := by
  rw [diffCalls_eq_passes hndL hndC, List.filter_append,
    filterMap_filter_by_id _ (removePass_productId currentItems) lastSyncedItems hndL pid,
    filterMap_filter_by_id _ (addUpdatePass_productId lastSyncedItems) currentItems hndC pid]
  unfold lookupQty
  cases hL : lastSyncedItems.find? (fun x => x.product.id = pid) with
  | none =>
      cases hC : currentItems.find? (fun x => x.product.id = pid) with
      | none => simp
      | some y =>
          have hy : y.product.id = pid := by simpa using List.find?_some hC
          have haddy : addUpdatePass lastSyncedItems y =
              some (SyncCall.addItemToCart pid y.quantity) := by
            unfold addUpdatePass
            rw [hy, hL]
          simp [haddy]
  | some x =>
      have hx : x.product.id = pid := by simpa using List.find?_some hL
      cases hC : currentItems.find? (fun x => x.product.id = pid) with
      | none =>
          have hany : currentItems.any (fun y => y.product.id = x.product.id) = false := by
            rw [List.any_eq_false]
            intro y hy
            have hne := List.find?_eq_none.mp hC y hy
            simp only [decide_eq_true_eq] at hne ⊢
            rw [hx]
            exact hne
          have hremx : removePass currentItems x =
              some (SyncCall.removeItemFromCart pid) := by
            unfold removePass
            rw [if_neg (by simp [hany]), hx]
          simp [hremx]
      | some y =>
          have hy : y.product.id = pid := by simpa using List.find?_some hC
          have hmem : y ∈ currentItems := List.mem_of_find?_eq_some hC
          have hany : currentItems.any (fun z => z.product.id = x.product.id) = true :=
            List.any_eq_true.mpr ⟨y, hmem, by simp [hy, hx]⟩
          have hremx : removePass currentItems x = none := by
            unfold removePass
            rw [if_pos (by simp [hany])]
          have haddy : addUpdatePass lastSyncedItems y =
              (if x.quantity ≠ y.quantity then
                some (SyncCall.updateItemQuantity pid y.quantity) else none) := by
            unfold addUpdatePass
            rw [hy, hL]
          by_cases hqty : x.quantity ≠ y.quantity
          · simp [hremx, haddy, hqty]
          · simp [hremx, haddy, hqty]

/-- C5: a successful sync cycle issues, for every product id, exactly one
remove-item call when the id is in the baseline but not the current cart,
exactly one add-item(id, qty) call when the id is current-only, exactly one
update-quantity(id, qty) call when the id is shared with differing
quantities, and no call otherwise; afterwards the baseline is set to the
current cart.  In particular, for baseline `{A:1}` and current `{A:1,B:2}`
the cycle issues exactly one add-item(B,2) call and sets the baseline to
`{A:1,B:2}`. -/
theorem sync_cycle_minimal_diff :
    (∀ (net : SyncCall → NetResult) (lastSyncedItems currentItems : Cart),
      (∀ c, apiRequestError (net c) = none) →
      (cartIds lastSyncedItems).Nodup → (cartIds currentItems).Nodup →
      (syncCartToBackend net lastSyncedItems currentItems).newBaseline = currentItems ∧
      ∀ productId,
        (syncCartToBackend net lastSyncedItems currentItems).issued.filter
            (fun c => c.productId = productId) =
          match lookupQty lastSyncedItems productId, lookupQty currentItems productId with
          | some _, none => [SyncCall.removeItemFromCart productId]
          | none, some q => [SyncCall.addItemToCart productId q]
          | some b, some q =>
              if b ≠ q then [SyncCall.updateItemQuantity productId q] else []
          | none, none => []) ∧
    syncCartToBackend (fun _ => NetResult.reply 200)
        [⟨⟨"A", "a", 10⟩, 1⟩] [⟨⟨"A", "a", 10⟩, 1⟩, ⟨⟨"B", "b", 30⟩, 2⟩] =
      { issued := [SyncCall.addItemToCart "B" 2],
        newBaseline := [⟨⟨"A", "a", 10⟩, 1⟩, ⟨⟨"B", "b", 30⟩, 2⟩],
        signedOut := false, toastError := none } := by
  constructor
  · intro net lastSyncedItems currentItems hok hndL hndC
    have hrun := runCalls_all_ok hok (diffCalls lastSyncedItems currentItems)
    constructor
    · unfold syncCartToBackend
      rw [hrun]
    · intro pid
      unfold syncCartToBackend
      rw [hrun]
      exact diffCalls_filter_by_id hndL hndC pid
  · rfl

/-- Witness for C5 at the spec's example baseline and cart. -/
theorem sync_cycle_minimal_diff_witness :
    (∀ c : SyncCall, apiRequestError ((fun _ => NetResult.reply 200) c) = none) ∧
    (syncCartToBackend (fun _ => NetResult.reply 200)
        [⟨⟨"A", "a", 10⟩, 1⟩] [⟨⟨"A", "a", 10⟩, 1⟩, ⟨⟨"B", "b", 30⟩, 2⟩]).newBaseline =
      [⟨⟨"A", "a", 10⟩, 1⟩, ⟨⟨"B", "b", 30⟩, 2⟩] :=
  ⟨fun _ => rfl,
    (sync_cycle_minimal_diff.1 (fun _ => NetResult.reply 200)
      [⟨⟨"A", "a", 10⟩, 1⟩] [⟨⟨"A", "a", 10⟩, 1⟩, ⟨⟨"B", "b", 30⟩, 2⟩]
      (fun _ => rfl) (by decide) (by decide)).1⟩

/-! ### The debounced sync effect as a state machine (C2)

The sync `useEffect` runs after every `items` change: React first runs the
previous effect's cleanup (`clearTimeout(debounceTimeout)`), then the new
effect body (guards on authentication, `initialLoadRef` and `syncingRef`,
then `syncingRef.current = true` and `setTimeout(syncCartToBackend, 500)`).
The timer firing runs `syncCartToBackend`, whose `finally` clears
`syncingRef`. -/

structure SyncEngineState where
  items : Cart
  lastSynced : Cart
  syncing : Bool
  initialLoad : Bool
  timerPending : Bool
  cycles : List (List SyncCall)
  deriving Repr, DecidableEq

/-- `setItems(newItems)` while the provider is mounted: the effect cleanup
cancels any pending debounce timer, then the effect body re-runs. -/
def mutate (auth : Bool) (s : SyncEngineState) (newItems : Cart) : SyncEngineState :=
  let s' := { s with items := newItems, timerPending := false }
  if ¬ auth then s'
  else if s'.initialLoad then s'
  else if s'.syncing then s'
  else { s' with syncing := true, timerPending := true }

/-- The pending 500 ms debounce timer fires: one sync cycle executes against
the current items; `finally` releases the syncing flag. -/
def timerFire (net : SyncCall → NetResult) (s : SyncEngineState) : SyncEngineState :=
  if ¬ s.timerPending then s
  else
    let o := syncCartToBackend net s.lastSynced s.items
    { s with timerPending := false, syncing := false,
             lastSynced := o.newBaseline, cycles := s.cycles ++ [o.issued] }

/-- A steady authenticated post-load state with one item and no activity. -/
def quietState : SyncEngineState :=
  { items := [⟨⟨"A", "a", 10⟩, 1⟩], lastSynced := [⟨⟨"A", "a", 10⟩, 1⟩],
    syncing := false, initialLoad := false, timerPending := false, cycles := [] }

/-- C2 (code bug): two cart mutations inside the 500 ms debounce window.
The first effect run sets `syncingRef` and arms the timer; the second
mutation's cleanup cancels that timer, and the effect body then returns at
the `syncingRef` guard without arming a new one.  No sync cycle ever
executes — the claim requires exactly one reflecting the final state — and
the engine is stuck: the syncing flag stays set with no pending timer, so a
further timer event is a no-op and further mutations keep being skipped. -/
theorem debounced_mutations_lose_sync_cycle :
    (mutate true (mutate true quietState [⟨⟨"A", "a", 10⟩, 1⟩, ⟨⟨"B", "b", 30⟩, 2⟩])
        [⟨⟨"A", "a", 10⟩, 1⟩, ⟨⟨"B", "b", 30⟩, 2⟩, ⟨⟨"C", "c", 5⟩, 3⟩]).cycles = [] ∧
    (mutate true (mutate true quietState [⟨⟨"A", "a", 10⟩, 1⟩, ⟨⟨"B", "b", 30⟩, 2⟩])
        [⟨⟨"A", "a", 10⟩, 1⟩, ⟨⟨"B", "b", 30⟩, 2⟩, ⟨⟨"C", "c", 5⟩, 3⟩]).timerPending = false ∧
    (mutate true (mutate true quietState [⟨⟨"A", "a", 10⟩, 1⟩, ⟨⟨"B", "b", 30⟩, 2⟩])
        [⟨⟨"A", "a", 10⟩, 1⟩, ⟨⟨"B", "b", 30⟩, 2⟩, ⟨⟨"C", "c", 5⟩, 3⟩]).syncing = true ∧
    (timerFire (fun _ => NetResult.reply 200)
      (mutate true (mutate true quietState [⟨⟨"A", "a", 10⟩, 1⟩, ⟨⟨"B", "b", 30⟩, 2⟩])
        [⟨⟨"A", "a", 10⟩, 1⟩, ⟨⟨"B", "b", 30⟩, 2⟩, ⟨⟨"C", "c", 5⟩, 3⟩])).cycles = [] ∧
    (mutate true
      (mutate true (mutate true quietState [⟨⟨"A", "a", 10⟩, 1⟩, ⟨⟨"B", "b", 30⟩, 2⟩])
        [⟨⟨"A", "a", 10⟩, 1⟩, ⟨⟨"B", "b", 30⟩, 2⟩, ⟨⟨"C", "c", 5⟩, 3⟩])
      [⟨⟨"A", "a", 10⟩, 1⟩]).cycles = [] := by
  refine ⟨rfl, rfl, rfl, rfl, rfl⟩

/-- C4 (code bug): a sync cycle in which a call comes back with HTTP status
401.  `apiRequest` only logs the 401 and resolves with the parsed body, so
`syncCartToBackend` treats the call as a success: the batch completes, the
baseline advances to the current cart, `signOut()` is never invoked and no
session-expired toast is shown — the `'Unauthorized'` branch of the catch
handler is unreachable through `apiRequest`'s status handling. -/
theorem unauthorized_reply_does_not_force_logout :
    (syncCartToBackend
        (fun c => if c = SyncCall.addItemToCart "B" 2 then NetResult.reply 401
                  else NetResult.reply 200)
        [⟨⟨"A", "a", 10⟩, 1⟩] [⟨⟨"A", "a", 10⟩, 1⟩, ⟨⟨"B", "b", 30⟩, 2⟩]) =
      { issued := [SyncCall.addItemToCart "B" 2],
        newBaseline := [⟨⟨"A", "a", 10⟩, 1⟩, ⟨⟨"B", "b", 30⟩, 2⟩],
        signedOut := false, toastError := none } := by
  rfl

/-! ### Loading the cart on mount (`loadCart`, C3 and C7) -/

/-- The durable inputs `loadCart` reads: the one-shot checkout flag, the raw
cart snapshot and the merge flag (`'true'`-valued keys as booleans). -/
structure LoadState where
  checkoutComplete : Bool
  storedCart : Option String
  cartMerged : Bool
  deriving Repr, DecidableEq

/-- The state after `loadCart` finishes. -/
structure LoadResult where
  items : Cart
  lastSynced : Cart
  initialLoad : Bool
  storedCart : Option String
  cartMerged : Bool
  checkoutComplete : Bool
  clearBackendCalled : Bool
  deriving Repr, DecidableEq

/-- Lines 78-87: read `localStorage['cart']` and `JSON.parse` it inside
`try`; a parse failure is logged, leaves the local cart empty and removes
the corrupt record.  Returns the parsed cart and the stored key's new
value.  `parse` abstracts `JSON.parse` (`none` = it threw). -/
def loadStoredCart (parse : String → Option Cart) (stored : Option String) :
    Cart × Option String :=
  match stored with
  | none => ([], none)
  | some s =>
      match parse s with
      | some localCart => (localCart, some s)
      | none => ([], none)

/-- Lines 56-120: the full `loadCart` effect body.  `auth` is
`isAuthenticated && user`; `mergeOk` tells whether the `mergeCart` push
resolves; `fetch` is the `getUserCart` result already mapped through
`item.product_details` (`none` = the promise rejected).  The merge flag is
committed right after the push succeeds, before the canonical fetch. -/
def loadCart (parse : String → Option Cart) (auth mergeOk : Bool)
    (fetch : Option Cart) (st : LoadState) : LoadResult :=
  if st.checkoutComplete then
    { items := [], lastSynced := [], initialLoad := false, storedCart := none,
      cartMerged := false, checkoutComplete := false, clearBackendCalled := auth }
  else
    if auth then
      if (loadStoredCart parse st.storedCart).1 ≠ [] ∧ st.cartMerged = false then
        if mergeOk = false then
          { items := (loadStoredCart parse st.storedCart).1,
            lastSynced := (loadStoredCart parse st.storedCart).1, initialLoad := false,
            storedCart := (loadStoredCart parse st.storedCart).2,
            cartMerged := st.cartMerged,
            checkoutComplete := false, clearBackendCalled := false }
        else
          match fetch with
          | none =>
              { items := (loadStoredCart parse st.storedCart).1,
                lastSynced := (loadStoredCart parse st.storedCart).1, initialLoad := false,
                storedCart := (loadStoredCart parse st.storedCart).2, cartMerged := true,
                checkoutComplete := false, clearBackendCalled := false }
          | some backendCart =>
              { items := backendCart, lastSynced := backendCart, initialLoad := false,
                storedCart := none, cartMerged := true,
                checkoutComplete := false, clearBackendCalled := false }
      else
        match fetch with
        | none =>
            { items := (loadStoredCart parse st.storedCart).1,
              lastSynced := (loadStoredCart parse st.storedCart).1, initialLoad := false,
              storedCart := (loadStoredCart parse st.storedCart).2,
              cartMerged := st.cartMerged,
              checkoutComplete := false, clearBackendCalled := false }
        | some backendCart =>
            { items := backendCart, lastSynced := backendCart, initialLoad := false,
              storedCart := none, cartMerged := st.cartMerged,
              checkoutComplete := false, clearBackendCalled := false }
    else
      { items := (loadStoredCart parse st.storedCart).1,
        lastSynced := (loadStoredCart parse st.storedCart).1, initialLoad := false,
        storedCart := (loadStoredCart parse st.storedCart).2, cartMerged := st.cartMerged,
        checkoutComplete := false, clearBackendCalled := false }

/-- C3 counterexample: authenticated load, non-empty guest cart, merge flag
clear, merge push succeeds, canonical fetch (step 2) fails — yet the durable
merge flag ends up set, so the merge is not retried on the next load. -/
theorem merge_flag_set_despite_fetch_failure :
    (loadCart (fun _ => some [⟨⟨"A", "a", 10⟩, 1⟩]) true true none
        { checkoutComplete := false, storedCart := some "snapshot",
          cartMerged := false }).cartMerged = true := by
  rfl

/-- C3 amended: on a failed authenticated load the pre-merge local cart
always becomes both the CartStore content and the sync baseline, and the
merge flag is left clear when the merge push itself fails; but when the push
succeeds and only the canonical fetch fails, the flag is durably set, so the
merge is not retried. -/
theorem loadCart_failure_fallback (parse : String → Option Cart) (mergeOk : Bool)
    (fetch : Option Cart) (st : LoadState) (hco : st.checkoutComplete = false) :
    (mergeOk = false → (loadStoredCart parse st.storedCart).1 ≠ [] →
      st.cartMerged = false →
      (loadCart parse true mergeOk fetch st).items = (loadStoredCart parse st.storedCart).1 ∧
      (loadCart parse true mergeOk fetch st).lastSynced =
        (loadStoredCart parse st.storedCart).1 ∧
      (loadCart parse true mergeOk fetch st).cartMerged = false) ∧
    (fetch = none →
      (loadCart parse true mergeOk fetch st).items = (loadStoredCart parse st.storedCart).1 ∧
      (loadCart parse true mergeOk fetch st).lastSynced =
        (loadStoredCart parse st.storedCart).1) ∧
    ((loadStoredCart parse st.storedCart).1 ≠ [] → st.cartMerged = false →
      mergeOk = true → fetch = none →
      (loadCart parse true mergeOk fetch st).cartMerged = true) := by
  have hco' : ¬ st.checkoutComplete = true := by rw [hco]; exact Bool.false_ne_true
  refine ⟨?_, ?_, ?_⟩
  · intro hmk hne hcm
    unfold loadCart
    rw [if_neg hco', if_pos rfl, if_pos ⟨hne, hcm⟩, if_pos hmk]
    exact ⟨rfl, rfl, hcm⟩
  · intro hf
    subst hf
    unfold loadCart
    rw [if_neg hco', if_pos rfl]
    by_cases hcond : (loadStoredCart parse st.storedCart).1 ≠ [] ∧ st.cartMerged = false
    · rw [if_pos hcond]
      by_cases hmk : mergeOk = false
      · rw [if_pos hmk]
        exact ⟨rfl, rfl⟩
      · rw [if_neg hmk]
        exact ⟨rfl, rfl⟩
    · rw [if_neg hcond]
      exact ⟨rfl, rfl⟩
  · intro hne hcm hmk hf
    subst hf
    unfold loadCart
    rw [if_neg hco', if_pos rfl, if_pos ⟨hne, hcm⟩,
      if_neg (by rw [hmk]; simp)]

/-- Witness for the amended C3 at a concrete failing load. -/
theorem loadCart_failure_fallback_witness :
    ({ checkoutComplete := false, storedCart := some "snapshot",
        cartMerged := false } : LoadState).checkoutComplete = false ∧
    (loadCart (fun _ => some [⟨⟨"A", "a", 10⟩, 1⟩]) true false none
        { checkoutComplete := false, storedCart := some "snapshot",
          cartMerged := false }).items = [⟨⟨"A", "a", 10⟩, 1⟩] :=
  ⟨rfl,
    ((loadCart_failure_fallback (fun _ => some [⟨⟨"A", "a", 10⟩, 1⟩]) false none
        { checkoutComplete := false, storedCart := some "snapshot", cartMerged := false }
        rfl).1 rfl (by decide) rfl).1⟩

/-- C7: reading the persisted snapshot never raises — it always yields a
cart (the parsed snapshot, or empty when nothing or garbage is stored) —
and unparseable data yields the empty cart with the corrupt record
discarded. -/
theorem loadStoredCart_never_raises :
    ∀ (parse : String → Option Cart) (stored : Option String),
      (loadStoredCart parse stored).1 = (stored.bind parse).getD [] ∧
      (∀ s, stored = some s → parse s = none → loadStoredCart parse stored = ([], none)) := by
  intro parse stored
  constructor
  · cases stored with
    | none => rfl
    | some s =>
        cases hp : parse s with
        | none => simp [loadStoredCart, hp]
        | some c => simp [loadStoredCart, hp]
  · intro s hs hp
    subst hs
    simp [loadStoredCart, hp]

/-- Witness for C7 on a concrete corrupt snapshot. -/
theorem loadStoredCart_never_raises_witness :
    loadStoredCart (fun _ => none) (some "corrupt") = ([], none) :=
  (loadStoredCart_never_raises (fun _ => none) (some "corrupt")).2 "corrupt" rfl rfl

/-! ### Session refresh (`AuthContext.tsx`, C8) and checkout (C9) -/

/-- The AuthContext state the refresh logic reads and writes: whether a user
is loaded (`user !== null`), the timestamp of the last refresh attempt, and
whether access/refresh credentials are stored.  (`JSON.parse` failures on
the stored tokens are not modelled; tokens are either present or absent.) -/
structure AuthState where
  user : Bool
  lastRefreshAttempt : Int
  hasAccess : Bool
  hasRefresh : Bool
  deriving Repr, DecidableEq

/-- A network call made by the auth layer. -/
inductive AuthCall where
  | profileFetch
  | refreshCall
  deriving Repr, DecidableEq

/-- Result of one auth operation: the returned boolean, the state after,
and the network calls issued in order. -/
structure AuthStep where
  ok : Bool
  state : AuthState
  calls : List AuthCall
  deriving Repr, DecidableEq

/-- `attemptTokenRefresh()`: without a refresh credential it fails with no
network call; otherwise it always issues the refresh call
(`authService.refreshToken`), and on success stores the new access token and
issues a profile fetch whose failure is swallowed; a failed refresh clears
the whole auth state. -/
def attemptTokenRefresh (refreshOk profileOk : Bool) (s : AuthState) : AuthStep :=
  if ¬ s.hasRefresh then { ok := false, state := s, calls := [] }
  else if refreshOk then
    if profileOk then
      { ok := true, state := { s with hasAccess := true, user := true },
        calls := [.refreshCall, .profileFetch] }
    else
      { ok := true, state := { s with hasAccess := true },
        calls := [.refreshCall, .profileFetch] }
  else
    { ok := false,
      state := { s with user := false, hasAccess := false, hasRefresh := false },
      calls := [.refreshCall] }

/-- `refreshToken()` (the on-demand `refreshSession`): inside the 2000 ms
cooldown it returns `!!user` with no network call and no state change;
otherwise it stamps `lastRefreshAttempt := now` and validates the access
credential by fetching the profile, falling back to `attemptTokenRefresh`
when the access token is missing or the profile fetch fails.  `profileOk`
is the first profile fetch's outcome, `refreshOk`/`profileOk2` feed the
fallback. -/
def refreshToken (now : Int) (profileOk refreshOk profileOk2 : Bool)
    (s : AuthState) : AuthStep :=
  if now - s.lastRefreshAttempt < 2000 then { ok := s.user, state := s, calls := [] }
  else
    if ¬ s.hasAccess then
      attemptTokenRefresh refreshOk profileOk2 { s with lastRefreshAttempt := now }
    else if profileOk then
      { ok := true, state := { s with lastRefreshAttempt := now, user := true },
        calls := [.profileFetch] }
    else
      let r := attemptTokenRefresh refreshOk profileOk2 { s with lastRefreshAttempt := now }
      { r with calls := .profileFetch :: r.calls }

theorem attemptTokenRefresh_lastAttempt (refreshOk profileOk : Bool) (s : AuthState) :
    (attemptTokenRefresh refreshOk profileOk s).state.lastRefreshAttempt =
      s.lastRefreshAttempt := by
  unfold attemptTokenRefresh
  repeat' split
  all_goals rfl

theorem attemptTokenRefresh_count (refreshOk profileOk : Bool) (s : AuthState) :
    ((attemptTokenRefresh refreshOk profileOk s).calls).count AuthCall.refreshCall ≤ 1 := by
  unfold attemptTokenRefresh
  repeat' split
  all_goals simp [List.count_cons]

theorem refreshToken_gated (now : Int) (p r pb : Bool) (s : AuthState)
    (h : now - s.lastRefreshAttempt < 2000) :
    refreshToken now p r pb s = { ok := s.user, state := s, calls := [] } := by
  unfold refreshToken
  rw [if_pos h]

theorem refreshToken_lastAttempt (now : Int) (p r pb : Bool) (s : AuthState)
    (h : ¬ (now - s.lastRefreshAttempt < 2000)) :
    (refreshToken now p r pb s).state.lastRefreshAttempt = now := by
  unfold refreshToken
  rw [if_neg h]
  by_cases hacc : ¬ ({ s with lastRefreshAttempt := now } : AuthState).hasAccess
  · rw [if_pos hacc, attemptTokenRefresh_lastAttempt]
  · rw [if_neg hacc]
    by_cases hp : p
    · rw [if_pos hp]
    · rw [if_neg hp]
      simp only []
      rw [attemptTokenRefresh_lastAttempt]

theorem refreshToken_count (now : Int) (p r pb : Bool) (s : AuthState) :
    ((refreshToken now p r pb s).calls).count AuthCall.refreshCall ≤ 1 := by
  unfold refreshToken
  by_cases hg : now - s.lastRefreshAttempt < 2000
  · rw [if_pos hg]; simp
  · rw [if_neg hg]
    by_cases hacc : ¬ ({ s with lastRefreshAttempt := now } : AuthState).hasAccess
    · rw [if_pos hacc]
      exact attemptTokenRefresh_count r pb _
    · rw [if_neg hacc]
      by_cases hp : p
      · rw [if_pos hp]; simp [List.count_cons]
      · rw [if_neg hp]
        simp only [List.count_cons]
        have := attemptTokenRefresh_count r pb
          ({ s with lastRefreshAttempt := now } : AuthState)
        simp only [beq_iff_eq]
        have hne : ¬ (AuthCall.refreshCall = AuthCall.profileFetch) := by decide
        simp [hne]
        omega

/-- C8: two on-demand session refresh calls, the first a real attempt (past
its own cooldown) and the second within 2000 ms of it: the second returns
the last known authentication status with no network call of any kind, and
across both calls at most one network refresh call is issued. -/
theorem refreshToken_cooldown_rate_limited (s : AuthState) (t0 t1 : Int)
    (p1 r1 p1b p2 r2 p2b : Bool)
    (hgap : 2000 ≤ t0 - s.lastRefreshAttempt) (horder : t0 ≤ t1)
    (hwin : t1 - t0 < 2000) :
    (refreshToken t1 p2 r2 p2b (refreshToken t0 p1 r1 p1b s).state).calls = [] ∧
    (refreshToken t1 p2 r2 p2b (refreshToken t0 p1 r1 p1b s).state).ok =
      (refreshToken t0 p1 r1 p1b s).state.user ∧
    ((refreshToken t0 p1 r1 p1b s).calls ++
      (refreshToken t1 p2 r2 p2b (refreshToken t0 p1 r1 p1b s).state).calls).count
        AuthCall.refreshCall ≤ 1 := by
  have hg1 : ¬ (t0 - s.lastRefreshAttempt < 2000) := by omega
  have hlast := refreshToken_lastAttempt t0 p1 r1 p1b s hg1
  have hg2 : t1 - (refreshToken t0 p1 r1 p1b s).state.lastRefreshAttempt < 2000 := by
    rw [hlast]; omega
  rw [refreshToken_gated t1 p2 r2 p2b _ hg2]
  refine ⟨rfl, rfl, ?_⟩
  rw [List.count_append]
  have := refreshToken_count t0 p1 r1 p1b s
  simp only [List.count_nil]
  omega

/-- Witness for C8 at concrete times and oracles. -/
theorem refreshToken_cooldown_rate_limited_witness :
    (2000 : Int) ≤ 5000 - 0 ∧ (5000 : Int) ≤ 6000 ∧ (6000 : Int) - 5000 < 2000 ∧
    (refreshToken 6000 true true true
      (refreshToken 5000 true true true
        { user := true, lastRefreshAttempt := 0, hasAccess := true,
          hasRefresh := true }).state).calls = [] :=
  ⟨by decide, by decide, by decide,
    (refreshToken_cooldown_rate_limited
      { user := true, lastRefreshAttempt := 0, hasAccess := true, hasRefresh := true }
      5000 6000 true true true true true true (by decide) (by decide) (by decide)).1⟩

/-- A network call observable from `processCheckout`: the auth calls of the
preceding `refreshToken()` and the `createOrder` request. -/
inductive CheckoutNetCall where
  | auth (c : AuthCall)
  | createOrder
  deriving Repr, DecidableEq

/-- Observable outcome of `processCheckout`. -/
structure CheckoutResult where
  result : Option String
  toastError : Option String
  netCalls : List CheckoutNetCall
  cartAfter : Cart
  navigatedTo : Option String
  threw : Bool
  deriving Repr, DecidableEq

/-- `processCheckout(shippingAddress, paymentMethod)` from `useCheckout`:
always awaits `refreshToken()` first; a failed refresh returns `null` with a
session-expired toast; an empty cart then returns `null` with an empty-cart
toast; otherwise the order is submitted (`createOrder`), on success toasting
and clearing the cart, on failure toasting and rethrowing.  Item-shape
validation never fires in this typed embedding; the address and payment
method do not influence control flow and are omitted. -/
def processCheckout (now : Int) (profileOk refreshOk profileOk2 : Bool)
    (s : AuthState) (items : Cart) (orderOk : Bool) : CheckoutResult :=
  if (refreshToken now profileOk refreshOk profileOk2 s).ok = false then
    { result := none,
      toastError := some "Your session has expired. Please sign in again to continue.",
      netCalls := (refreshToken now profileOk refreshOk profileOk2 s).calls.map
        CheckoutNetCall.auth,
      cartAfter := items, navigatedTo := some "/cart", threw := false }
  else if items = [] then
    { result := none,
      toastError := some "Your cart is empty. Please add items before checking out.",
      netCalls := (refreshToken now profileOk refreshOk profileOk2 s).calls.map
        CheckoutNetCall.auth,
      cartAfter := items, navigatedTo := some "/cart", threw := false }
  else if orderOk then
    { result := some "order-id", toastError := none,
      netCalls := (refreshToken now profileOk refreshOk profileOk2 s).calls.map
        CheckoutNetCall.auth ++ [.createOrder],
      cartAfter := [], navigatedTo := some "/", threw := false }
  else
    { result := none, toastError := some "Failed to process your order",
      netCalls := (refreshToken now profileOk refreshOk profileOk2 s).calls.map
        CheckoutNetCall.auth ++ [.createOrder],
      cartAfter := items, navigatedTo := none, threw := true }

/-- C9 counterexample: an empty-cart checkout in a fresh authenticated
session (outside the refresh cooldown).  The checkout is rejected with the
empty-cart toast and returns `null`, but the preceding `refreshToken()` has
already issued a profile-fetch network request — so the attempt does not
happen "before any network call". -/
theorem empty_cart_checkout_issues_network_call :
    (processCheckout 10000 true true true
        { user := true, lastRefreshAttempt := 0, hasAccess := true, hasRefresh := true }
        [] true).result = none ∧
    (processCheckout 10000 true true true
        { user := true, lastRefreshAttempt := 0, hasAccess := true, hasRefresh := true }
        [] true).netCalls = [CheckoutNetCall.auth AuthCall.profileFetch] := by
  exact ⟨rfl, rfl⟩

/-- C9 amended: an empty-cart checkout whose preceding session refresh
succeeds is rejected before the order request: it surfaces the empty-cart
message, issues no `createOrder` network call (the session refresh itself
may have issued auth network calls), leaves the cart unchanged, returns
`null`, and throws nothing. -/
theorem empty_cart_checkout_rejected_before_order_call
    (now : Int) (p r pb : Bool) (s : AuthState) (orderOk : Bool)
    (hok : (refreshToken now p r pb s).ok = true) :
    (processCheckout now p r pb s [] orderOk).result = none ∧
    (processCheckout now p r pb s [] orderOk).toastError =
      some "Your cart is empty. Please add items before checking out." ∧
    CheckoutNetCall.createOrder ∉ (processCheckout now p r pb s [] orderOk).netCalls ∧
    (processCheckout now p r pb s [] orderOk).cartAfter = [] ∧
    (processCheckout now p r pb s [] orderOk).threw = false := by
  unfold processCheckout
  rw [if_neg (by rw [hok]; simp), if_pos rfl]
  refine ⟨rfl, rfl, ?_, rfl, rfl⟩
  intro hmem
  rcases List.mem_map.mp hmem with ⟨c, _, hc⟩
  cases hc

/-- Witness for the amended C9 at a concrete state. -/
theorem empty_cart_checkout_rejected_witness :
    (refreshToken 10000 true true true
      { user := true, lastRefreshAttempt := 0, hasAccess := true,
        hasRefresh := true }).ok = true ∧
    (processCheckout 10000 true true true
        { user := true, lastRefreshAttempt := 0, hasAccess := true, hasRefresh := true }
        [] true).toastError =
      some "Your cart is empty. Please add items before checking out." :=
  ⟨rfl,
    (empty_cart_checkout_rejected_before_order_call 10000 true true true
      { user := true, lastRefreshAttempt := 0, hasAccess := true, hasRefresh := true }
      true rfl).2.1⟩

end ChoyApparel
